import Mathlib

/-!
Verification of `bux::oo_mariadb` (MySQL/MariaDB Connector/C C++ wrappers).

This file gives a shallow embedding, in Lean 4, of the state-manipulating
core of `src/oo_mariadb.cpp` / `include/bux/oo_mariadb.h`:

* the long-data chunking loop of `C_MySqlStmt::bindParams`,
* the bind-descriptor array management of `C_MySqlStmt::allocBind`,
* the chunk-limit discovery of `C_MySqlStmt::maxAllowedPacket`,
* the retry loops of `query(MYSQL*, const std::string&)` and
  `C_MySqlStmt::execNoThrow`,
* the error-string formatters `errorSuffix(MYSQL*)` / `errorSuffix(MYSQL_STMT*)`,
* row fetching (`C_MySqlStmt::nextRow`) and the text-query scalar helpers
  (`queryColumn` / `queryString`),
* the connection lifecycle of `C_MySQL::mysql()` / `C_MySQL::stmt()`.

The native client library (libmysqlclient) is an opaque external collaborator:
its responses (ping results, thread ids, per-attempt error codes, fetched
rows) are modelled as explicit inputs, machine integers as `Nat`, buffers as
`List Nat` of bytes, and C++ exceptions as explicit error results.
-/

namespace bux

/-- Model of the C `MYSQL_BIND` descriptor (the fields this library touches).
`buffer` models the pointed-to byte array (`[]` for a null pointer);
`buffer_length` is the separate length field, as in C. `memset(...,0,...)`
yields the all-zero descriptor `zeroBind`. -/
structure MYSQL_BIND where
  buffer : List Nat
  buffer_length : Nat
  buffer_type : Nat
  is_null_value : Bool
  length_value : Nat
  deriving Repr, DecidableEq

/-- The all-zero `MYSQL_BIND`, as produced by `memset(bind, 0, sizeof ...)`
and by the value-initialization in `std::make_unique<MYSQL_BIND[]>`. -/
def zeroBind : MYSQL_BIND :=
  { buffer := [], buffer_length := 0, buffer_type := 0
    is_null_value := false, length_value := 0 }

/-- Chunk stream of the loop in `C_MySqlStmt::bindParams` (oo_mariadb.cpp
lines 449-455) in its wrap-free regime: consecutive `step`-byte slices of
the buffer, the last one partial.  `sendLongData32` below is the faithful
machine-level model of the same loop with its 32-bit offset accumulator;
`sendLongData32_eq_sendLongData` proves that whenever no offset the loop
forms can wrap (`L + step ≤ UINT_SIZE`) the loop terminates and emits
exactly this stream.  A `step` of 0 (which would not advance the C loop)
produces no chunks. -/
def sendLongData (buf : List Nat) (step : Nat) : List (List Nat) :=
  if buf.isEmpty ∨ step = 0 then []
  else buf.take step :: sendLongData (buf.drop step) step
termination_by buf.length
decreasing_by
  rename_i h
  rw [not_or, List.isEmpty_iff] at h
  have h1 : buf ≠ [] := h.1
  have h2 : step ≠ 0 := h.2
  have : 0 < buf.length := List.length_pos.mpr h1
  simp only [List.length_drop]
  omega

theorem sendLongData_nil (step : Nat) : sendLongData [] step = [] := by
  rw [sendLongData]
  simp

theorem sendLongData_cons (buf : List Nat) (step : Nat) (hb : buf ≠ [])
    (hs : step ≠ 0) :
    sendLongData buf step = buf.take step :: sendLongData (buf.drop step) step := by
  rw [sendLongData]
  simp [List.isEmpty_iff, hb, hs]

/-- Chunks concatenated in transmission order reproduce the buffer. -/
theorem sendLongData_join (buf : List Nat) (step : Nat) (hs : step ≠ 0) :
    (sendLongData buf step).flatten = buf := by
  induction buf, step using sendLongData.induct with
  | case1 buf step h =>
    rcases h with h | h
    · rw [List.isEmpty_iff] at h
      subst h
      rw [sendLongData_nil]
      rfl
    · exact absurd h hs
  | case2 buf step h ih =>
    rw [not_or, List.isEmpty_iff] at h
    rw [sendLongData_cons _ _ h.1 h.2, List.flatten_cons, ih hs]
    exact List.take_append_drop step buf

/-- Every transmitted chunk carries at most `step` bytes. -/
theorem sendLongData_chunk_le (buf : List Nat) (step : Nat) :
    ∀ c ∈ sendLongData buf step, c.length ≤ step := by
  induction buf, step using sendLongData.induct with
  | case1 buf step h =>
    intro c hc
    rw [sendLongData, if_pos h] at hc
    exact absurd hc (List.not_mem_nil c)
  | case2 buf step h ih =>
    rw [not_or, List.isEmpty_iff] at h
    intro c hc
    rw [sendLongData_cons _ _ h.1 h.2] at hc
    rcases List.mem_cons.mp hc with hceq | hmem
    · subst hceq
      simp only [List.length_take]
      exact Nat.min_le_left step buf.length
    · exact ih c hmem

/-- The chunk count is `⌈L / step⌉ = (L + step - 1) / step`. -/
theorem sendLongData_length (buf : List Nat) (step : Nat) (hs : step ≠ 0) :
    (sendLongData buf step).length = (buf.length + step - 1) / step := by
  induction buf, step using sendLongData.induct with
  | case1 buf step h =>
    rcases h with h | h
    · rw [List.isEmpty_iff] at h
      subst h
      rw [sendLongData_nil]
      have : step - 1 < step := by omega
      simp [Nat.div_eq_of_lt this]
    · exact absurd h hs
  | case2 buf step h ih =>
    rw [not_or, List.isEmpty_iff] at h
    have hpos : 0 < buf.length := List.length_pos.mpr h.1
    have hstep : 0 < step := Nat.pos_of_ne_zero h.2
    rw [sendLongData_cons _ _ h.1 h.2, List.length_cons, ih hs]
    simp only [List.length_drop]
    have hL : buf.length + step - 1 = (buf.length - 1) + step := by omega
    rw [hL, Nat.add_div_right _ hstep]
    by_cases hle : buf.length ≤ step
    · have h0 : buf.length - step = 0 := by omega
      rw [h0]
      simp only [Nat.zero_add]
      have h1 : step - 1 < step := by omega
      rw [Nat.div_eq_of_lt h1]
      have h2 : buf.length - 1 < step := by omega
      rw [Nat.div_eq_of_lt h2]
    · have hL2 : buf.length - step + step - 1 = (buf.length - step - 1) + step := by
        omega
      rw [hL2, Nat.add_div_right _ hstep,
        ← Nat.add_div_right (buf.length - step - 1) hstep]
      have h3 : buf.length - step - 1 + step = buf.length - 1 := by omega
      rw [h3]

/-- Number of values of the C type `unsigned` (32 bits on every platform
this library targets): the chunk loop's offset accumulator wraps modulo
this. -/
def UINT_SIZE : Nat := 4294967296

/-- Faithful machine-level model of the chunking loop in
`C_MySqlStmt::bindParams` (oo_mariadb.cpp line 450):
`for (unsigned off = 0; off < src.buffer_length; off += step)`.  `off` is a
32-bit `unsigned` and advances modulo `UINT_SIZE`, while `src.buffer_length`
(`L`) is the descriptor's 64-bit `unsigned long`; the guard compares the
wrapped accumulator against the full length, and the iteration sends
`min(step, unsigned(L - off))` bytes — the subtraction truncated to 32 bits
— starting at the wrapped offset.  One fuel unit is spent per loop
iteration, starting from `UINT_SIZE` units: the wrapped accumulator
revisits its initial value within `UINT_SIZE` iterations, so exhausting the
fuel (`none`) means the source loop never exits. -/
def sendLongData32Go (buf : List Nat) (L step : Nat) :
    Nat → Nat → Option (List (List Nat))
  | _, 0 => none
  | off, fuel + 1 =>
    if off < L then
      match sendLongData32Go buf L step ((off + step) % UINT_SIZE) fuel with
      | none => none
      | some rest =>
        some ((buf.drop off).take (min step ((L - off) % UINT_SIZE)) :: rest)
    else
      some []

/-- The chunk loop of `C_MySqlStmt::bindParams` run from `off = 0`:
`some chunks` when the loop exits after finitely many sends, `none` when it
never exits. -/
def sendLongData32 (buf : List Nat) (L step : Nat) : Option (List (List Nat)) :=
  sendLongData32Go buf L step 0 UINT_SIZE

/-- For `L ≥ 2^32` the wrapped offset always stays below `L`, so the loop
guard never fails: the loop never exits. -/
theorem sendLongData32Go_none_of_ge (buf : List Nat) (L step : Nat)
    (hL : UINT_SIZE ≤ L) :
    ∀ fuel off, off < UINT_SIZE → sendLongData32Go buf L step off fuel = none := by
  intro fuel
  induction fuel with
  | zero => intro off _; rfl
  | succ fuel ih =>
    intro off hoff
    have hlt : off < L := lt_of_lt_of_le hoff hL
    have hrec := ih ((off + step) % UINT_SIZE) (Nat.mod_lt _ (by decide))
    simp only [sendLongData32Go, if_pos hlt, hrec]

theorem sendLongData32_none_of_ge (buf : List Nat) (L step : Nat)
    (hL : UINT_SIZE ≤ L) : sendLongData32 buf L step = none :=
  sendLongData32Go_none_of_ge buf L step hL UINT_SIZE 0 (by decide)

/-- In the wrap-free regime (`L + step ≤ 2^32`) every offset the loop forms
is exact, so the machine-level loop emits precisely the `sendLongData`
chunk stream of the remaining buffer. -/
theorem sendLongData32Go_eq (buf : List Nat) (L step : Nat) (hstep : step ≠ 0)
    (hlen : buf.length = L) (hwrap : L + step ≤ UINT_SIZE) :
    ∀ fuel off, L - off + step ≤ fuel * step →
      sendLongData32Go buf L step off fuel
        = some (sendLongData (buf.drop off) step) := by
  intro fuel
  induction fuel with
  | zero =>
    intro off h
    rw [Nat.zero_mul] at h
    omega
  | succ fuel ih =>
    intro off h
    by_cases hoff : off < L
    · have hmod1 : (L - off) % UINT_SIZE = L - off := Nat.mod_eq_of_lt (by omega)
      have hmod2 : (off + step) % UINT_SIZE = off + step :=
        Nat.mod_eq_of_lt (by omega)
      have hfuel : L - (off + step) + step ≤ fuel * step := by
        have hmul : (fuel + 1) * step = fuel * step + step := Nat.succ_mul fuel step
        rcases Nat.eq_zero_or_pos fuel with rfl | hpos
        · simp only [Nat.zero_add, Nat.one_mul] at h
          omega
        · have hstep1 : step ≤ fuel * step := Nat.le_mul_of_pos_left step hpos
          omega
      have hdlen : (buf.drop off).length = L - off := by
        rw [List.length_drop, hlen]
      have hne : buf.drop off ≠ [] := by
        intro hnil
        rw [hnil] at hdlen
        simp at hdlen
        omega
      have hchunk : (buf.drop off).take (min step (L - off))
          = (buf.drop off).take step := by
        rcases Nat.le_total step (L - off) with hc | hc
        · rw [Nat.min_eq_left hc]
        · rw [Nat.min_eq_right hc,
            List.take_of_length_le (le_of_eq hdlen),
            List.take_of_length_le (hdlen ▸ hc)]
      have htail : (buf.drop off).drop step = buf.drop (off + step) := by
        rw [List.drop_drop, Nat.add_comm]
      rw [sendLongData_cons _ _ hne hstep]
      simp only [sendLongData32Go, if_pos hoff, hmod2, ih (off + step) hfuel,
        hmod1, hchunk, htail]
    · have hdrop : buf.drop off = [] := List.drop_eq_nil_of_le (by omega)
      rw [hdrop, sendLongData_nil]
      simp [sendLongData32Go, hoff]

theorem sendLongData32_eq_sendLongData (buf : List Nat) (L step : Nat)
    (hstep : step ≠ 0) (hlen : buf.length = L) (hwrap : L + step ≤ UINT_SIZE) :
    sendLongData32 buf L step = some (sendLongData buf step) := by
  have h1 : UINT_SIZE ≤ UINT_SIZE * step :=
    Nat.le_mul_of_pos_right UINT_SIZE (by omega)
  have hfuel : L - 0 + step ≤ UINT_SIZE * step := by omega
  have hgo := sendLongData32Go_eq buf L step hstep hlen hwrap UINT_SIZE 0 hfuel
  rw [sendLongData32, hgo, List.drop_zero]

/-- Model of the long-parameter scan in `C_MySqlStmt::bindParams`
(oo_mariadb.cpp lines 438-441): every index `i < m_bindSize` whose
descriptor satisfies `barr[i].buffer_length > maxAllowedPacket()` is pushed
into `longParams`, in increasing order. -/
def longParams (barr : List MYSQL_BIND) (limit : Nat) : List Nat :=
  (List.range barr.length).filter fun i =>
    limit < (barr.getD i zeroBind).buffer_length

/-- Out-of-band transmission trace of `C_MySqlStmt::bindParams` (lines
446-456) in the wrap-free regime: for each collected index `i` in scan
order, the chunks of its buffer are pushed through
`mysql_stmt_send_long_data(m_stmt, i, ...)`; each trace entry pairs the
addressed parameter index with the chunk bytes.  Per-parameter, the stream
is grounded in the machine-level loop by `sendLongData32_eq_sendLongData`
when no 32-bit offset wrap can occur. -/
def longDataTrace (barr : List MYSQL_BIND) (limit : Nat) : List (Nat × List Nat) :=
  ((longParams barr limit).map fun i =>
    (sendLongData (barr.getD i zeroBind).buffer limit).map fun c => (i, c)).flatten

theorem longParams_nodup (barr : List MYSQL_BIND) (limit : Nat) :
    (longParams barr limit).Nodup :=
  (List.nodup_range _).filter _

theorem mem_longParams (barr : List MYSQL_BIND) (limit i : Nat) :
    i ∈ longParams barr limit ↔
      i < barr.length ∧ limit < (barr.getD i zeroBind).buffer_length := by
  simp [longParams, List.mem_filter, List.mem_range]

theorem filter_flatten_map_of_not_mem {α : Type} (l : List Nat) (f : Nat → List α)
    (i : Nat) (hi : i ∉ l) :
    (((l.map fun j => (f j).map fun a => (j, a)).flatten.filter
      fun p => p.1 == i)) = [] := by
  induction l with
  | nil => rfl
  | cons j l ih =>
    simp only [List.map_cons, List.flatten_cons, List.filter_append]
    have hji : j ≠ i := fun e => hi (e ▸ List.mem_cons_self j l)
    have h1 : (((f j).map fun a => (j, a)).filter fun p => p.1 == i) = [] := by
      apply List.filter_eq_nil_iff.mpr
      intro p hp
      rcases List.mem_map.mp hp with ⟨a, _, rfl⟩
      simp [hji]
    rw [h1, ih fun hm => hi (List.mem_cons_of_mem _ hm)]
    rfl

theorem filter_flatten_map_of_mem {α : Type} (l : List Nat) (f : Nat → List α)
    (i : Nat) (hnd : l.Nodup) (hi : i ∈ l) :
    (((l.map fun j => (f j).map fun a => (j, a)).flatten.filter
      fun p => p.1 == i)) = (f i).map fun a => (i, a) := by
  induction l with
  | nil => cases hi
  | cons j l ih =>
    simp only [List.map_cons, List.flatten_cons, List.filter_append]
    rcases List.mem_cons.mp hi with rfl | hmem
    · have hnotin : i ∉ l := (List.nodup_cons.mp hnd).1
      have h1 : (((f i).map fun a => (i, a)).filter fun p => p.1 == i)
          = (f i).map fun a => (i, a) := by
        apply List.filter_eq_self.mpr
        intro p hp
        rcases List.mem_map.mp hp with ⟨a, _, rfl⟩
        simp
      rw [h1, filter_flatten_map_of_not_mem l f i hnotin, List.append_nil]
    · have hji : j ≠ i := by
        rintro rfl
        exact (List.nodup_cons.mp hnd).1 hmem
      have h1 : (((f j).map fun a => (j, a)).filter fun p => p.1 == i) = [] := by
        apply List.filter_eq_nil_iff.mpr
        intro p hp
        rcases List.mem_map.mp hp with ⟨a, _, rfl⟩
        simp [hji]
      rw [h1, ih (List.nodup_cons.mp hnd).2 hmem]
      rfl

/-- Claim C2 counterexample: the chunk loop's offset accumulator `off` is a
32-bit `unsigned` while the descriptor's `buffer_length` is 64-bit, so for
a parameter whose buffer length is `2^32` — which strictly exceeds the
chunk limit 32768, the code's own fallback value — every wrapped offset
stays below `buffer_length` and the loop never exits: no finite chunk
stream is produced at all, in particular not one of `⌈L/c⌉` chunks
concatenating to the buffer, refuting the claim as universally stated. -/
theorem bindParams_chunk_loop_wraps_ce :
    (List.replicate UINT_SIZE (0 : Nat)).length = UINT_SIZE
    ∧ 32768 < UINT_SIZE
    ∧ sendLongData32 (List.replicate UINT_SIZE 0) UINT_SIZE 32768 = none :=
  ⟨List.length_replicate UINT_SIZE 0, by decide,
   sendLongData32_none_of_ge _ _ _ (le_refl UINT_SIZE)⟩

/-- Claim C2 (amended): for every parameter whose bind-descriptor buffer
length `L` strictly exceeds the chunk limit `c > 0`, provided
`L + c ≤ 2^32` — so the loop's 32-bit offset accumulator never wraps — the
machine-level chunk loop of `bindParams` terminates and streams, addressed
to that parameter index, exactly the recorded trace chunks: `⌈L / c⌉` of
them, each at most `c` bytes, concatenating in transmission order to the
original `L`-byte buffer.  (For `L ≥ 2^32` the loop never terminates; see
the counterexample.  `hwf` states that the descriptor's `buffer_length`
field matches the buffer it points at, as every binder in this library
arranges.) -/
theorem bindParams_long_param_chunks (barr : List MYSQL_BIND) (limit i : Nat)
    (hlim : 0 < limit)
    (hwf : (barr.getD i zeroBind).buffer_length
            = (barr.getD i zeroBind).buffer.length)
    (hi : i < barr.length)
    (hlong : limit < (barr.getD i zeroBind).buffer_length)
    (hwrap : (barr.getD i zeroBind).buffer_length + limit ≤ UINT_SIZE) :
    sendLongData32 (barr.getD i zeroBind).buffer
        (barr.getD i zeroBind).buffer_length limit
      = some (((longDataTrace barr limit).filter fun p => p.1 == i).map Prod.snd)
    ∧ (((longDataTrace barr limit).filter fun p => p.1 == i).map Prod.snd).length
        = ((barr.getD i zeroBind).buffer_length + limit - 1) / limit
    ∧ (∀ c ∈ ((longDataTrace barr limit).filter fun p => p.1 == i).map Prod.snd,
        c.length ≤ limit)
    ∧ (((longDataTrace barr limit).filter fun p => p.1 == i).map Prod.snd).flatten
        = (barr.getD i zeroBind).buffer := by
  have hkey : ((longDataTrace barr limit).filter fun p => p.1 == i)
      = (sendLongData (barr.getD i zeroBind).buffer limit).map fun c => (i, c) := by
    unfold longDataTrace
    exact filter_flatten_map_of_mem _ _ i (longParams_nodup barr limit)
      ((mem_longParams barr limit i).mpr ⟨hi, hlong⟩)
  have hmap : (((sendLongData (barr.getD i zeroBind).buffer limit).map
        fun c => (i, c)).map Prod.snd)
      = sendLongData (barr.getD i zeroBind).buffer limit := by
    rw [List.map_map]
    simp
  rw [hkey, hmap]
  refine ⟨?_, ?_, sendLongData_chunk_le _ _, sendLongData_join _ _ (by omega)⟩
  · exact sendLongData32_eq_sendLongData _ _ _ (by omega) hwf.symm hwrap
  · rw [sendLongData_length _ _ (by omega), hwf]

/-- Concrete instantiation of `bindParams_long_param_chunks`: one parameter
with a 5-byte buffer against a chunk limit of 2 (no 32-bit wrap possible)
yields a terminating loop with 3 chunks of at most 2 bytes joining back to
the buffer. -/
theorem bindParams_long_param_chunks_witness :
    sendLongData32 (([⟨[1, 2, 3, 4, 5], 5, 0, false, 5⟩] : List MYSQL_BIND).getD 0
            zeroBind).buffer
        (([⟨[1, 2, 3, 4, 5], 5, 0, false, 5⟩] : List MYSQL_BIND).getD 0
            zeroBind).buffer_length 2
      = some (((longDataTrace [⟨[1, 2, 3, 4, 5], 5, 0, false, 5⟩] 2).filter
          fun p => p.1 == 0).map Prod.snd)
    ∧ (((longDataTrace [⟨[1, 2, 3, 4, 5], 5, 0, false, 5⟩] 2).filter
        fun p => p.1 == 0).map Prod.snd).length
        = ((([⟨[1, 2, 3, 4, 5], 5, 0, false, 5⟩] : List MYSQL_BIND).getD 0
            zeroBind).buffer_length + 2 - 1) / 2
    ∧ (∀ c ∈ ((longDataTrace [⟨[1, 2, 3, 4, 5], 5, 0, false, 5⟩] 2).filter
        fun p => p.1 == 0).map Prod.snd, c.length ≤ 2)
    ∧ (((longDataTrace [⟨[1, 2, 3, 4, 5], 5, 0, false, 5⟩] 2).filter
        fun p => p.1 == 0).map Prod.snd).flatten
        = (([⟨[1, 2, 3, 4, 5], 5, 0, false, 5⟩] : List MYSQL_BIND).getD 0
            zeroBind).buffer :=
  bindParams_long_param_chunks [⟨[1, 2, 3, 4, 5], 5, 0, false, 5⟩] 2 0
    (by decide) (by decide) (by decide) (by decide) (by decide)

/-- Per-statement state of `C_MySqlStmt` (oo_mariadb.h lines 77-80): logical
bind count `m_bindSize`, allocated capacity `m_bindSizeLimit`, the descriptor
array `m_bindArr` (empty list for a null `unique_ptr`), and the cached chunk
limit `m_maxPacketBytes` (0 meaning "not discovered yet"). -/
structure C_MySqlStmtState where
  m_bindSize : Nat
  m_bindSizeLimit : Nat
  m_bindArr : List MYSQL_BIND
  m_maxPacketBytes : Nat
  deriving Repr, DecidableEq

/-- State of a freshly constructed `C_MySqlStmt` (all counters zero, no
array, no cached packet size). -/
def freshStmtState : C_MySqlStmtState :=
  { m_bindSize := 0, m_bindSizeLimit := 0, m_bindArr := [], m_maxPacketBytes := 0 }

/-- Model of `C_MySqlStmt::allocBind` (oo_mariadb.cpp lines 415-431): grow
the array (fresh allocation, old contents dropped) when capacity is below
`count`; set the logical size; `memset` the first `count` descriptors to
zero when `count > 0`, otherwise free the array and reset the capacity. -/
def allocBind (s : C_MySqlStmtState) (count : Nat) : C_MySqlStmtState :=
  let s1 :=
    if s.m_bindSizeLimit < count then
      { s with m_bindSizeLimit := count,
               m_bindArr := List.replicate count zeroBind }
    else s
  if count ≠ 0 then
    { s1 with m_bindSize := count,
              m_bindArr := List.replicate count zeroBind ++ s1.m_bindArr.drop count }
  else
    { s1 with m_bindSize := 0, m_bindSizeLimit := 0, m_bindArr := [] }

/-- Descriptor-state effect of one binding pass, as performed by
`C_MySqlStmt::bindParams` (lines 433-437) and `C_MySqlStmt::execBindResults`
(lines 487-492): `allocBind` to the declared count, then run the
caller-supplied binder on the active descriptor block.  The binder is
modelled as a function from the active block it is handed to the block it
leaves behind (truncated to the active size, since `barr` only exposes
`m_bindSize` slots). -/
def bindPass (s : C_MySqlStmtState) (count : Nat)
    (binder : List MYSQL_BIND → List MYSQL_BIND) : C_MySqlStmtState :=
  let s1 := allocBind s count
  { s1 with m_bindArr :=
      (binder (s1.m_bindArr.take s1.m_bindSize)).take s1.m_bindSize
        ++ s1.m_bindArr.drop s1.m_bindSize }

theorem allocBind_take_eq_replicate (s : C_MySqlStmtState) (count : Nat)
    (hc : count ≠ 0) :
    (allocBind s count).m_bindArr.take count = List.replicate count zeroBind := by
  unfold allocBind
  by_cases hlt : s.m_bindSizeLimit < count <;>
    simp [hlt, hc, List.take_append_eq_append_take, List.length_replicate,
      List.take_replicate]

theorem allocBind_size (s : C_MySqlStmtState) (count : Nat) :
    (allocBind s count).m_bindSize = count := by
  unfold allocBind
  by_cases hc : count = 0 <;>
    by_cases hlt : s.m_bindSizeLimit < count <;> simp [hlt, hc]

theorem bindPass_zero (s : C_MySqlStmtState)
    (binder : List MYSQL_BIND → List MYSQL_BIND) :
    bindPass s 0 binder =
      { m_bindSize := 0, m_bindSizeLimit := 0, m_bindArr := [],
        m_maxPacketBytes := s.m_maxPacketBytes } := by
  obtain ⟨a, b, c, d⟩ := s
  simp [bindPass, allocBind]

theorem bindPass_pos_of_empty (m : Nat) (N : Nat) (hN : 0 < N)
    (binder : List MYSQL_BIND → List MYSQL_BIND) :
    bindPass ⟨0, 0, [], m⟩ N binder =
      { m_bindSize := N, m_bindSizeLimit := N,
        m_bindArr := (binder (List.replicate N zeroBind)).take N,
        m_maxPacketBytes := m } := by
  have hne : N ≠ 0 := Nat.pos_iff_ne_zero.mp hN
  simp [bindPass, allocBind, hne, hN, List.take_replicate,
    List.drop_eq_nil_of_le, List.length_replicate]

/-- Claim C6: every binding pass with `count > 0` zero-fills all `count`
active descriptors before the caller-supplied binder runs; consequently,
after binding a statement with `N` parameters (binder `f`), then `0`
(binder `h`), then `N` again (binder `g`), the final descriptor array is
exactly what `g` produces from an all-zero block — independent of the
initial state `s`, of `f`, and of `h`: no stale pointer or type tag
survives an earlier bind. -/
theorem allocBind_zero_fills (s : C_MySqlStmtState)
    (f h g : List MYSQL_BIND → List MYSQL_BIND) (N : Nat) (hN : 0 < N) :
    (allocBind s N).m_bindArr.take N = List.replicate N zeroBind
    ∧ (bindPass (bindPass (bindPass s N f) 0 h) N g).m_bindArr
        = (g (List.replicate N zeroBind)).take N := by
  refine ⟨allocBind_take_eq_replicate s N (Nat.pos_iff_ne_zero.mp hN), ?_⟩
  rw [bindPass_zero, bindPass_pos_of_empty _ N hN g]

/-- Concrete instantiation of `allocBind_zero_fills` at `N = 2` with a
first binder planting a nonzero pointer/type and a second binder that leaves
the zero-filled block alone. -/
theorem allocBind_zero_fills_witness :
    (allocBind freshStmtState 2).m_bindArr.take 2 = List.replicate 2 zeroBind
    ∧ (bindPass (bindPass (bindPass freshStmtState 2
          fun _ => [⟨[9, 9], 2, 254, false, 2⟩, ⟨[7], 1, 253, true, 1⟩]) 0
          fun l => l) 2
          fun l => l).m_bindArr
        = ((fun l => l) (List.replicate 2 zeroBind)).take 2 :=
  allocBind_zero_fills freshStmtState
    (fun _ => [⟨[9, 9], 2, 254, false, 2⟩, ⟨[7], 1, 253, true, 1⟩])
    (fun l => l) (fun l => l) 2 (by decide)

/-- Claim C7 counterexample: the allocated capacity `m_bindSizeLimit` does
shrink within a Statement lifetime — a zero-count `allocBind` (reached
whenever a statement with no parameters or no result columns is bound)
frees the array and resets the capacity from 3 to 0. -/
theorem allocBind_capacity_shrinks_ce :
    (allocBind (allocBind freshStmtState 3) 0).m_bindSizeLimit
      < (allocBind freshStmtState 3).m_bindSizeLimit := by decide

/-- Claim C7 (amended): the capacity never shrinks under any `allocBind`
call with a nonzero count, and a zero-count call frees the array, resetting
both the capacity and the logical size to 0. -/
theorem allocBind_capacity_grows (s : C_MySqlStmtState) (count : Nat)
    (hc : count ≠ 0) :
    s.m_bindSizeLimit ≤ (allocBind s count).m_bindSizeLimit
    ∧ (allocBind s 0).m_bindSizeLimit = 0 ∧ (allocBind s 0).m_bindSize = 0 := by
  refine ⟨?_, by simp [allocBind], by simp [allocBind]⟩
  unfold allocBind
  by_cases hlt : s.m_bindSizeLimit < count <;> simp [hlt, hc]
  omega

/-- Concrete instantiation of `allocBind_capacity_grows` at count 3. -/
theorem allocBind_capacity_grows_witness :
    freshStmtState.m_bindSizeLimit ≤ (allocBind freshStmtState 3).m_bindSizeLimit
    ∧ (allocBind freshStmtState 0).m_bindSizeLimit = 0
    ∧ (allocBind freshStmtState 0).m_bindSize = 0 :=
  allocBind_capacity_grows freshStmtState 3 (by decide)

/-- Model of `C_MySqlStmt::maxAllowedPacket` (oo_mariadb.cpp lines 530-546).
`answer` is the first row of the auxiliary prepared query
`select @@max_allowed_packet`, `none` when that query yields no row; a
fetched value is written straight into `m_maxPacketBytes` through the
integer result bind.  Returns the updated statement state together with a
flag recording whether the auxiliary query ran on this call. -/
def maxAllowedPacket (s : C_MySqlStmtState) (answer : Option Nat) :
    C_MySqlStmtState × Bool :=
  if s.m_maxPacketBytes ≠ 0 then (s, false)
  else
    let fetched :=
      match answer with
      | some a => if a % 1024 ≠ 0 then 65536 else a
      | none => 65536
    ({ s with m_maxPacketBytes := fetched / 2 }, true)

/-- Claim C5 counterexample: with the server answering 0 for
`@@max_allowed_packet` (0 is a multiple of 1024, so it is accepted), the
halved value 0 is stored, which is the "not discovered yet" sentinel — so a
second call on the same Statement runs the auxiliary query again: the query
is not run at most once per Statement lifetime. -/
theorem maxAllowedPacket_reruns_ce :
    (maxAllowedPacket freshStmtState (some 0)).2 = true
    ∧ (maxAllowedPacket (maxAllowedPacket freshStmtState (some 0)).1
        (some 0)).2 = true := by decide

/-- Claim C5 (amended): on a Statement whose limit is undiscovered, the call
runs the auxiliary query and caches the server's answer halved when the
answer is present and a multiple of 1024, and 65536 halved (32768)
otherwise; the cached value is 0 (so that a later call runs the query
again) exactly when the server answered 0 — for any other answer the query
runs only once per Statement lifetime, every later call returning the
cached value without running it. -/
theorem maxAllowedPacket_spec (s : C_MySqlStmtState) (answer answer2 : Option Nat)
    (hs : s.m_maxPacketBytes = 0) :
    (maxAllowedPacket s answer).2 = true
    ∧ (maxAllowedPacket s answer).1.m_maxPacketBytes
        = (match answer with
           | some a => if a % 1024 = 0 then a else 65536
           | none => 65536) / 2
    ∧ ((maxAllowedPacket s answer).1.m_maxPacketBytes = 0 ↔ answer = some 0)
    ∧ ((maxAllowedPacket s answer).1.m_maxPacketBytes ≠ 0 →
        maxAllowedPacket (maxAllowedPacket s answer).1 answer2
          = ((maxAllowedPacket s answer).1, false)) := by
  have h0 : ¬s.m_maxPacketBytes ≠ 0 := by simp [hs]
  refine ⟨?_, ?_, ?_, ?_⟩
  · simp [maxAllowedPacket, h0]
  · cases answer with
    | none => simp [maxAllowedPacket, h0]
    | some a =>
      by_cases ha : a % 1024 = 0 <;> simp [maxAllowedPacket, h0, ha]
  · cases answer with
    | none => simp [maxAllowedPacket, h0]
    | some a =>
      by_cases ha : a % 1024 = 0 <;> simp [maxAllowedPacket, h0, ha] <;> omega
  · intro hne
    rw [maxAllowedPacket.eq_def, if_pos hne]

/-- Concrete instantiation of `maxAllowedPacket_spec` with a fresh
Statement and a server answer of 2048: the cached limit is 1024, and the
second call does not rerun the auxiliary query. -/
theorem maxAllowedPacket_spec_witness :
    (maxAllowedPacket freshStmtState (some 2048)).2 = true
    ∧ (maxAllowedPacket freshStmtState (some 2048)).1.m_maxPacketBytes
        = (match some 2048 with
           | some a => if a % 1024 = 0 then a else 65536
           | none => 65536) / 2
    ∧ ((maxAllowedPacket freshStmtState (some 2048)).1.m_maxPacketBytes = 0
        ↔ (some 2048 : Option Nat) = some 0)
    ∧ ((maxAllowedPacket freshStmtState (some 2048)).1.m_maxPacketBytes ≠ 0 →
        maxAllowedPacket (maxAllowedPacket freshStmtState (some 2048)).1 none
          = ((maxAllowedPacket freshStmtState (some 2048)).1, false)) :=
  maxAllowedPacket_spec freshStmtState (some 2048) none rfl

/-- Diagnostics of the native connection handle at one point in time:
`mysql_errno`, `mysql_sqlstate` and `mysql_error`. -/
structure MySqlErrInfo where
  errno : Nat
  sqlstate : String
  message : String
  deriving Repr, DecidableEq

/-- Model of `errorSuffix(MYSQL*)` (oo_mariadb.cpp lines 34-45): empty for
error code 0; otherwise the code, the SQL state and — when nonempty — the
quoted message text. -/
def errorSuffixConn (e : MySqlErrInfo) : String :=
  if e.errno ≠ 0 then
    " with mysql error(" ++ toString e.errno ++ ")[" ++ e.sqlstate ++ "]"
      ++ (if e.message ≠ "" then " \"" ++ e.message ++ "\"" else "")
  else ""

/-- Model of `errorSuffix(MYSQL_STMT*)` (oo_mariadb.cpp lines 47-55): the
formatted string, paired with a flag recording whether
`mysql_stmt_free_result(stmt)` was issued during the call. -/
def errorSuffixStmt (errno : Nat) (message : String) : String × Bool :=
  ((if errno ≠ 0 then
      " with mysql stmt error(" ++ toString errno ++ "): " ++ message
    else ""),
   true)

/-- Claim C10: every call to `errorSuffix(MYSQL_STMT*)` issues
`mysql_stmt_free_result` — even when the statement error code is 0 and the
returned string is empty — so formatting a statement error message is never
effect-free on statement state. -/
theorem errorSuffixStmt_always_frees (errno : Nat) (message : String) :
    (errorSuffixStmt errno message).2 = true
    ∧ (errorSuffixStmt 0 message).1 = "" := ⟨rfl, rfl⟩

/-- Outcome of the text-query helper `query(MYSQL*, const std::string&)`:
the call returns normally, raises a `std::runtime_error` with the given
message, or — when the injected outcome list runs out while the loop is
still resubmitting — has not yet terminated. -/
inductive QueryOutcome where
  | ok
  | raised (msg : String)
  | diverged
  deriving Repr, DecidableEq

/-- The error codes resubmitted by the `switch` in
`query(MYSQL*, const std::string&)` (oo_mariadb.cpp lines 62-66): 1205
"Lock wait timeout exceeded" and 1213 "Deadlock found". -/
def queryRetryable (errno : Nat) : Bool :=
  errno == 1205 || errno == 1213

/-- Model of `query(MYSQL*, const std::string&)` (oo_mariadb.cpp lines
57-70).  Each element of `attempts` is the outcome of one `mysql_query`
call: `none` for success, `some e` for failure with diagnostics `e`.  The
preceding `flushResults(mysql)` only drains pending results and is not part
of the modelled state.  On a retryable code the identical `sql` is
resubmitted; otherwise the error is wrapped via `RUNTIME_ERROR` together
with `errorSuffix(mysql)`. -/
def queryLoop (sql : String) : List (Option MySqlErrInfo) → QueryOutcome
  | [] => .diverged
  | none :: _ => .ok
  | some e :: rest =>
    if queryRetryable e.errno then queryLoop sql rest
    else .raised ("Query \"" ++ sql ++ "\"" ++ errorSuffixConn e)

/-- Claim C3: `query(mysql, sql)` resubmits the identical SQL exactly on
error codes 1205 and 1213 and raises on the first attempt whose code is not
one of those, wrapping that code together with the SQL state and message
text (via `errorSuffixConn`) and the original SQL; it never retries a
non-designated code.  Stated as a full characterization: the loop raises
`msg` iff the injected attempt outcomes decompose into a prefix of failures
with retryable codes followed by a failure with a non-retryable code whose
wrapped diagnostics are `msg`. -/
theorem query_retry_policy (sql : String) (attempts : List (Option MySqlErrInfo))
    (msg : String) :
    queryLoop sql attempts = .raised msg ↔
      ∃ pre e post, attempts = pre ++ some e :: post
        ∧ (∀ x ∈ pre, ∃ d, x = some d ∧ queryRetryable d.errno = true)
        ∧ queryRetryable e.errno = false
        ∧ msg = "Query \"" ++ sql ++ "\"" ++ errorSuffixConn e := by
  constructor
  · intro hraised
    induction attempts with
    | nil => simp [queryLoop] at hraised
    | cons x rest ih =>
      cases x with
      | none => simp [queryLoop] at hraised
      | some e =>
        by_cases hr : queryRetryable e.errno
        · rw [queryLoop, if_pos hr] at hraised
          rcases ih hraised with ⟨pre, e', post, hdec, hpre, hnr, hmsg⟩
          exact ⟨some e :: pre, e', post, by rw [hdec]; rfl,
            fun x hx => by
              rcases List.mem_cons.mp hx with rfl | hx'
              · exact ⟨e, rfl, hr⟩
              · exact hpre x hx',
            hnr, hmsg⟩
        · rw [queryLoop, if_neg hr] at hraised
          exact ⟨[], e, rest, rfl, by simp,
            Bool.eq_false_iff.mpr hr, (QueryOutcome.raised.injEq _ _).mp hraised.symm⟩
  · rintro ⟨pre, e, post, rfl, hpre, hnr, rfl⟩
    induction pre with
    | nil =>
      rw [List.nil_append, queryLoop, if_neg (by simp [hnr])]
    | cons x pre ih =>
      rcases hpre x (List.mem_cons_self x pre) with ⟨d, rfl, hd⟩
      rw [List.cons_append, queryLoop, if_pos hd]
      exact ih fun y hy => hpre y (List.mem_cons_of_mem _ hy)

/-- The error codes resubmitted by the `switch` in
`C_MySqlStmt::execNoThrow` (oo_mariadb.cpp lines 475-482): only 1213
"Deadlock found". -/
def stmtRetryable (errno : Nat) : Bool :=
  errno == 1213

/-- Result of `C_MySqlStmt::execNoThrow`: the returned error code (0 on
success), or non-termination when the injected outcome list is exhausted
while the loop is still resubmitting. -/
inductive ExecOutcome where
  | ret (code : Nat)
  | diverged
  deriving Repr, DecidableEq

/-- Model of `C_MySqlStmt::execNoThrow` (oo_mariadb.cpp lines 470-485).
Each element of `attempts` is the outcome of one `mysql_stmt_execute` call:
`none` for success (the function returns 0), `some c` for failure with
`mysql_stmt_errno` equal to `c` (resubmitted when `c` is 1213, returned
otherwise). -/
def execNoThrow : List (Option Nat) → ExecOutcome
  | [] => .diverged
  | none :: _ => .ret 0
  | some c :: rest =>
    if stmtRetryable c then execNoThrow rest else .ret c

/-- Claim C4 counterexample: the two retry policies differ on error code
1205 (lock wait timeout).  On the attempt outcomes "fail with 1205, then
succeed", `C_MySqlStmt::execNoThrow` surfaces 1205 to its caller, while the
text-query helper `query()` resubmits and returns success. -/
theorem execNoThrow_policy_differs_ce :
    execNoThrow [some 1205, none] = .ret 1205
    ∧ queryLoop "select 0" [some ⟨1205, "HY000", "Lock wait timeout exceeded"⟩,
        none] = .ok := by decide

/-- Claim C4 (amended): `C_MySqlStmt::execNoThrow` silently resubmits only
on deadlock (1213) — it surfaces the first non-1213 code, 1205 included, as
its return value — so it matches the text-query retry policy on every error
code except 1205, where `query()` retries but `execNoThrow` surfaces. -/
theorem execNoThrow_retry_policy (attempts : List (Option Nat)) (code : Nat)
    (hnz : code ≠ 0) :
    (execNoThrow attempts = .ret code ↔
      ∃ pre post, attempts = pre ++ some code :: post
        ∧ (∀ x ∈ pre, x = some 1213)
        ∧ stmtRetryable code = false)
    ∧ (∀ c : Nat, c ≠ 1205 → stmtRetryable c = queryRetryable c) := by
  constructor
  · constructor
    · intro hret
      induction attempts with
      | nil => simp [execNoThrow] at hret
      | cons x rest ih =>
        cases x with
        | none =>
          rw [execNoThrow] at hret
          exact absurd ((ExecOutcome.ret.injEq _ _).mp hret).symm hnz
        | some c =>
          by_cases hr : stmtRetryable c
          · rw [execNoThrow, if_pos hr] at hret
            rcases ih hret with ⟨pre, post, hdec, hpre, hnr⟩
            have hc : c = 1213 := by simpa [stmtRetryable] using hr
            exact ⟨some c :: pre, post, by rw [hdec]; rfl,
              fun x hx => by
                rcases List.mem_cons.mp hx with rfl | hx'
                · rw [hc]
                · exact hpre x hx',
              hnr⟩
          · rw [execNoThrow, if_neg hr] at hret
            have : c = code := (ExecOutcome.ret.injEq _ _).mp hret
            subst this
            exact ⟨[], rest, rfl, by simp, Bool.eq_false_iff.mpr hr⟩
    · rintro ⟨pre, post, rfl, hpre, hnr⟩
      induction pre with
      | nil =>
        rw [List.nil_append, execNoThrow, if_neg (by simp [hnr])]
      | cons x pre ih =>
        have hx : x = some 1213 := hpre x (List.mem_cons_self x pre)
        subst hx
        rw [List.cons_append, execNoThrow, if_pos (by simp [stmtRetryable])]
        exact ih fun y hy => hpre y (List.mem_cons_of_mem _ hy)
  · intro c hc
    have hb : (c == 1205) = false := beq_eq_false_iff_ne.mpr hc
    simp [stmtRetryable, queryRetryable, hb]

/-- Concrete instantiation of `execNoThrow_retry_policy`: a deadlock (1213)
is resubmitted and the following duplicate-key error 1062 is surfaced. -/
theorem execNoThrow_retry_policy_witness :
    (execNoThrow [some 1213, some 1062] = .ret 1062 ↔
      ∃ pre post, ([some 1213, some 1062] : List (Option Nat))
          = pre ++ some 1062 :: post
        ∧ (∀ x ∈ pre, x = some 1213)
        ∧ stmtRetryable 1062 = false)
    ∧ (∀ c : Nat, c ≠ 1205 → stmtRetryable c = queryRetryable c) :=
  execNoThrow_retry_policy [some 1213, some 1062] 1062 (by decide)

/-- Return value of `mysql_stmt_fetch` meaning "end of data"
(mysql_com.h). -/
def MYSQL_NO_DATA : Nat := 100

/-- Return value of `mysql_stmt_fetch` meaning "data truncated"
(mysql_com.h). -/
def MYSQL_DATA_TRUNCATED : Nat := 101

/-- Model of `C_MySqlStmt::nextRow` (oo_mariadb.cpp lines 548-555): `err`
is the return value of `mysql_stmt_fetch` (0 success, 1 error,
`MYSQL_NO_DATA`, or `MYSQL_DATA_TRUNCATED`); `stmtErrno`/`stmtMsg` are the
statement diagnostics consulted by `errorSuffix(MYSQL_STMT*)` when the
fatal error is raised. -/
def nextRow (err stmtErrno : Nat) (stmtMsg : String) : Except String Bool :=
  if err = 1 then
    .error ("Fail to fetch row" ++ (errorSuffixStmt stmtErrno stmtMsg).1)
  else
    .ok (decide (err ≠ MYSQL_NO_DATA))

/-- Claim C8 counterexample: a per-row truncation (`mysql_stmt_fetch`
returning `MYSQL_DATA_TRUNCATED`) is not fatal — `nextRow` returns `true`
("a row was fetched") instead of raising. -/
theorem nextRow_truncation_not_fatal_ce :
    nextRow MYSQL_DATA_TRUNCATED 0 "" = Except.ok true := rfl

/-- Claim C8 (amended): `nextRow()` raises a fatal runtime error exactly
when `mysql_stmt_fetch` reports a fetch error (return value 1); it returns
`false` exactly at end of data (`MYSQL_NO_DATA`); every other return value
— 0 (row fetched) and `MYSQL_DATA_TRUNCATED` (row fetched with truncated
columns, relied upon by the `getLongBlob` read path) included — yields
`true`. -/
theorem nextRow_spec (err stmtErrno : Nat) (stmtMsg : String) :
    ((∃ msg, nextRow err stmtErrno stmtMsg = Except.error msg) ↔ err = 1)
    ∧ (nextRow err stmtErrno stmtMsg = Except.ok false
        ↔ err ≠ 1 ∧ err = MYSQL_NO_DATA)
    ∧ (nextRow err stmtErrno stmtMsg = Except.ok true
        ↔ err ≠ 1 ∧ err ≠ MYSQL_NO_DATA) := by
  unfold nextRow
  by_cases h1 : err = 1
  · subst h1
    refine ⟨⟨fun _ => rfl, fun _ => ⟨_, rfl⟩⟩, ?_, ?_⟩ <;> simp [MYSQL_NO_DATA]
  · by_cases hnd : err = MYSQL_NO_DATA <;> simp [h1, hnd, MYSQL_NO_DATA]

/-- Model of `queryColumn` (oo_mariadb.cpp lines 113-119): run the SQL,
then fetch rows one by one, handing `row[colInd]` (a nullable C string) to
the callback until it returns `false` or the rows are exhausted.  The
callback's captured state (the C++ lambdas capture locals by reference) is
threaded explicitly as `σ`; it receives the cell and returns the new state
and the keep-going flag. -/
def queryColumn {σ : Type} (rows : List (List (Option String))) (colInd : Nat)
    (nextRowCb : σ → Option String → σ × Bool) (init : σ) : σ :=
  match rows with
  | [] => init
  | row :: rest =>
    let r := nextRowCb init (row.getD colInd none)
    if r.2 then queryColumn rest colInd nextRowCb r.1 else r.1

/-- Model of `queryString` (oo_mariadb.cpp lines 121-133): scan the column
with a callback that, on a non-null cell, stores it and stops; on a null
cell, keeps going with the accumulator unchanged. -/
def queryString (rows : List (List (Option String))) (colInd : Nat) : String :=
  queryColumn rows colInd
    (fun ret s =>
      match s with
      | some v => (v, false)
      | none => (ret, true))
    ""

/-- Claim C9 counterexample: when the first row's value at the column is
null, `queryString` does not return the empty string — it keeps scanning
and returns the second row's value. -/
theorem queryString_skips_null_ce :
    queryString [[none], [some "x"]] 0 = "x" ∧ "x" ≠ "" := by
  refine ⟨rfl, by decide⟩

/-- Claim C9 (amended): `queryString(mysql, sql, colInd)` returns the first
non-null value at column `colInd` scanning the result rows in order, and
the empty string when no row has a non-null value there (in particular when
the query yields no row); a no-row result is never a fatal error (the model
is total and never raises). -/
theorem queryString_spec (rows : List (List (Option String))) (colInd : Nat) :
    queryString rows colInd
      = ((rows.map fun r => r.getD colInd none).findSome? id).getD "" := by
  unfold queryString
  induction rows with
  | nil => rfl
  | cons row rest ih =>
    rw [List.map_cons, List.findSome?_cons]
    cases hcell : row.getD colInd none with
    | none =>
      rw [queryColumn]
      simp only [hcell]
      exact ih
    | some v =>
      rw [queryColumn]
      simp only [hcell]
      rfl

/-- One probe/connect interaction of `C_MySQL` with the native library:
whether `mysql_ping` succeeds, the `mysql_thread_id` observed after a
successful ping, whether a full reconnect would succeed, and the thread id
of the fresh session on reconnect. -/
structure ProbeEnv where
  pingOk : Bool
  curThreadId : Nat
  connectOk : Bool
  newThreadId : Nat
  deriving Repr, DecidableEq

/-- Connection-lifecycle state of `C_MySQL` (oo_mariadb.h lines 128-131):
whether the native handle is live (`m_mysql != nullptr`), the cached server
thread id `m_threadID`, the owned Statement `m_pstmt` (identified by a
creation counter, so distinct creations are distinguishable) and the next
fresh Statement identity. -/
structure ConnState where
  m_mysql : Bool
  m_threadID : Nat
  m_pstmt : Option Nat
  nextStmtId : Nat
  deriving Repr, DecidableEq

/-- Model of `C_MySQL::connect_` (oo_mariadb.cpp lines 309-356): always
`disconnect()` first, destroying the owned Statement and closing any
handle; on success the new handle is installed and the fresh session's
thread id is cached; on failure the partially constructed handle is
released and a runtime error raised (flag `false`). -/
def connectAux (s : ConnState) (env : ProbeEnv) : ConnState × Bool :=
  if env.connectOk then
    ({ s with m_mysql := true, m_threadID := env.newThreadId, m_pstmt := none },
     true)
  else
    ({ s with m_mysql := false, m_pstmt := none }, false)

/-- Model of `C_MySQL::mysql()` (oo_mariadb.cpp lines 285-307).  The calls
`m_pstmt->clear()` and `flushResults(m_mysql)` only drain driver-side
pending results and do not touch the modelled state.  When a handle exists
and the liveness probe succeeds, a changed `mysql_thread_id` destroys the
owned Statement and adopts the new id; otherwise `connect_` runs.  The flag
is `false` when the call raises (connect failure). -/
def mysqlAcquire (s : ConnState) (env : ProbeEnv) : ConnState × Bool :=
  if s.m_mysql && env.pingOk then
    if env.curThreadId ≠ s.m_threadID then
      ({ s with m_threadID := env.curThreadId, m_pstmt := none }, true)
    else (s, true)
  else connectAux s env

/-- Model of `C_MySQL::stmt()` (oo_mariadb.cpp lines 368-375): acquire the
connection (triggering the ping), then create a fresh `C_MySqlStmt` when
none is owned.  The last component is the identity of the Statement handed
back (`none` when the acquire raised). -/
def stmtAcquire (s : ConnState) (env : ProbeEnv) : ConnState × Bool × Option Nat :=
  let r := mysqlAcquire s env
  if r.2 then
    match r.1.m_pstmt with
    | some id => (r.1, true, some id)
    | none =>
      ({ r.1 with m_pstmt := some r.1.nextStmtId,
                  nextStmtId := r.1.nextStmtId + 1 },
       true, some r.1.nextStmtId)
  else (r.1, false, none)

/-- Model of `C_MySQL::disconnect` (oo_mariadb.cpp lines 358-366): the
owned Statement is destroyed first, then the handle is closed. -/
def disconnectConn (s : ConnState) : ConnState :=
  { s with m_mysql := false, m_pstmt := none }

/-- One public operation on a `C_MySQL` object, with the native library's
responses supplied alongside. -/
inductive ConnOp where
  | acquire (env : ProbeEnv)
  | getStmt (env : ProbeEnv)
  | close
  deriving Repr, DecidableEq

/-- Effect of one operation: the next state, and the Statement identity
returned when the operation was a `stmt()` call that succeeded. -/
def runOp (s : ConnState) : ConnOp → ConnState × Option Nat
  | .acquire env => ((mysqlAcquire s env).1, none)
  | .getStmt env => ((stmtAcquire s env).1, (stmtAcquire s env).2.2)
  | .close => (disconnectConn s, none)

/-- Run a sequence of operations, collecting every Statement identity that
`C_MySQL::stmt()` hands back along the way. -/
def runOps (s : ConnState) : List ConnOp → ConnState × List Nat
  | [] => (s, [])
  | op :: rest =>
    ((runOps (runOp s op).1 rest).1,
     (runOp s op).2.toList ++ (runOps (runOp s op).1 rest).2)

theorem mysqlAcquire_frame (s : ConnState) (env : ProbeEnv) :
    ((mysqlAcquire s env).1.m_pstmt = s.m_pstmt
      ∨ (mysqlAcquire s env).1.m_pstmt = none)
    ∧ (mysqlAcquire s env).1.nextStmtId = s.nextStmtId := by
  unfold mysqlAcquire connectAux
  by_cases h1 : s.m_mysql && env.pingOk
  · by_cases h2 : env.curThreadId ≠ s.m_threadID <;> simp [h1, h2]
  · by_cases h3 : env.connectOk <;> simp [h1, h3]

theorem runOp_bound (s : ConnState) (op : ConnOp) (b : Nat)
    (hp : ∀ id, s.m_pstmt = some id → b ≤ id) (hn : b ≤ s.nextStmtId) :
    (∀ id, (runOp s op).1.m_pstmt = some id → b ≤ id)
    ∧ b ≤ (runOp s op).1.nextStmtId
    ∧ (∀ id, (runOp s op).2 = some id → b ≤ id) := by
  cases op with
  | acquire env =>
    have hf := mysqlAcquire_frame s env
    refine ⟨?_, ?_, ?_⟩
    · intro id hid
      simp only [runOp] at hid
      rcases hf.1 with h | h
      · exact hp id (h ▸ hid)
      · rw [h] at hid; cases hid
    · simp only [runOp, hf.2, hn]
    · intro id hid; cases hid
  | getStmt env =>
    have hf := mysqlAcquire_frame s env
    have hacq : ∀ id, (mysqlAcquire s env).1.m_pstmt = some id → b ≤ id := by
      intro id hid
      rcases hf.1 with h | h
      · exact hp id (h ▸ hid)
      · rw [h] at hid; cases hid
    have hnext : b ≤ (mysqlAcquire s env).1.nextStmtId := hf.2 ▸ hn
    simp only [runOp, stmtAcquire]
    by_cases hok : (mysqlAcquire s env).2
    · simp only [hok, if_true]
      cases hps : (mysqlAcquire s env).1.m_pstmt with
      | some id =>
        refine ⟨fun j hj => ?_, ?_, fun j hj => ?_⟩
        · exact hacq j (hps ▸ hj)
        · exact hnext
        · cases hj; exact hacq id hps
      | none =>
        refine ⟨fun j hj => ?_, ?_, fun j hj => ?_⟩
        · simp only [Option.some.injEq] at hj
          omega
        · simp only []
          omega
        · cases hj; exact hnext
    · simp only [hok, if_false]
      exact ⟨hacq, hnext, fun j hj => by cases hj⟩
  | close =>
    refine ⟨fun j hj => ?_, hn, fun j hj => by cases hj⟩
    simp [runOp, disconnectConn] at hj

theorem runOps_bound (ops : List ConnOp) (s : ConnState) (b : Nat)
    (hp : ∀ id, s.m_pstmt = some id → b ≤ id) (hn : b ≤ s.nextStmtId) :
    ∀ id ∈ (runOps s ops).2, b ≤ id := by
  induction ops generalizing s with
  | nil => intro id h; cases h
  | cons op rest ih =>
    intro id hid
    rw [runOps] at hid
    have hb := runOp_bound s op b hp hn
    rcases List.mem_append.mp hid with h | h
    · exact hb.2.2 id (Option.mem_toList.mp h)
    · exact ih (runOp s op).1 hb.1 hb.2.1 id h

/-- Claim C1: on a `C_MySQL::mysql()` call where a handle exists, the
liveness probe succeeds, and the observed server thread id differs from the
cached one, the owned Statement is destroyed (`m_pstmt.reset()`), the new
thread id is adopted, and the call returns normally; consequently the
Statement owned before the detected change (identity `oldId`, below the
freshness counter) is never handed out by any later sequence of
`mysql()` / `stmt()` / `disconnect()` operations — every later `stmt()`
call yields a freshly created Statement, bound to the session current at
its creation. -/
theorem thread_change_invalidates_statement (s : ConnState) (env : ProbeEnv)
    (oldId : Nat) (ops : List ConnOp)
    (hlive : s.m_mysql = true) (hping : env.pingOk = true)
    (hdiff : env.curThreadId ≠ s.m_threadID)
    (_hstmt : s.m_pstmt = some oldId) (hfresh : oldId < s.nextStmtId) :
    (mysqlAcquire s env).1.m_pstmt = none
    ∧ (mysqlAcquire s env).1.m_threadID = env.curThreadId
    ∧ (mysqlAcquire s env).2 = true
    ∧ oldId ∉ (runOps (mysqlAcquire s env).1 ops).2 := by
  have hstep : mysqlAcquire s env
      = ({ s with m_threadID := env.curThreadId, m_pstmt := none }, true) := by
    unfold mysqlAcquire
    rw [if_pos (by simp [hlive, hping]), if_pos hdiff]
  refine ⟨by rw [hstep], by rw [hstep], by rw [hstep], ?_⟩
  rw [hstep]
  intro hmem
  have hb := runOps_bound ops _ (oldId + 1)
    (by intro id h; simp at h) (by simpa using hfresh) oldId hmem
  omega

/-- Concrete instantiation of `thread_change_invalidates_statement`: a live
connection caching thread id 5 and owning Statement 0 observes thread id 7
after a successful ping; the later `stmt()` call never returns
Statement 0 again. -/
theorem thread_change_invalidates_statement_witness :
    (mysqlAcquire ⟨true, 5, some 0, 1⟩ ⟨true, 7, true, 7⟩).1.m_pstmt = none
    ∧ (mysqlAcquire ⟨true, 5, some 0, 1⟩ ⟨true, 7, true, 7⟩).1.m_threadID = 7
    ∧ (mysqlAcquire ⟨true, 5, some 0, 1⟩ ⟨true, 7, true, 7⟩).2 = true
    ∧ 0 ∉ (runOps (mysqlAcquire ⟨true, 5, some 0, 1⟩ ⟨true, 7, true, 7⟩).1
        [ConnOp.getStmt ⟨true, 7, true, 7⟩]).2 :=
  thread_change_invalidates_statement ⟨true, 5, some 0, 1⟩ ⟨true, 7, true, 7⟩
    0 [ConnOp.getStmt ⟨true, 7, true, 7⟩] rfl rfl (by decide) rfl (by decide)

end bux
